import Mathlib

/-!
# NASA space explorer: gallery rendering and modal lifecycle

A shallow embedding of `src/js/script.js`.

* Values read from a catalog record are JavaScript strings or `undefined`
  (`Option String`); `truthy`, `jsOr` and `toDOMString` are the language's
  truthiness, `||` and string conversion on such values.
* DOM elements are trees (`Node`): tag, the properties assigned by the script in
  assignment order, the text content, the element children in append order.
* Code that can throw returns `Except JsError`.
* The date parser and the locale formatter of the host are parameters (`Env`).
-/

namespace SpaceExplorer

/-! ## JavaScript values -/

/-- Exceptions that the script can meet. -/
inductive JsError where
  | typeError (msg : String)
  | networkError (status : Nat)
  | fetchRejected
  | jsonParseError
  deriving DecidableEq, Repr

/-- Truthiness of a value that is a string or `undefined`: only a non-empty
string is truthy. -/
def truthy : Option String → Bool
  | some s => s != ""
  | none => false

/-- The operator `a || b` on values that are strings or `undefined`. -/
def jsOr (a b : Option String) : Option String :=
  if truthy a then a else b

/-- String conversion applied when a value is assigned to a DOM string
property. -/
def toDOMString : Option String → String
  | some s => s
  | none => "undefined"

/-! ## Catalog records -/

/-- The properties of a catalog record that the script reads. A property that
the JSON object does not have is `none` (`undefined`). -/
structure Record where
  title : Option String
  date : Option String
  media_type : Option String
  url : Option String
  hdurl : Option String
  thumbnail_url : Option String
  explanation : Option String
  deriving DecidableEq, Repr

/-- An element of the fetched array: JSON `null`, or any other JSON value seen
through the properties read by the script (a number, string, boolean or array
has none of them: every field is `none`). -/
inductive Item where
  | null
  | obj (r : Record)
  deriving DecidableEq, Repr

/-- Property read `item.p`: a `TypeError` on `null`. -/
def Item.get (item : Item) (p : Record → Option String) : Except JsError (Option String) :=
  match item with
  | .null => .error (.typeError "Cannot read properties of null")
  | .obj r => .ok (p r)

/-- The host environment: `parse s` is the time value of `new Date(s)` (`none`
for NaN, an invalid date), `toLocale t` is the short locale rendering of a
valid time value, `stringify` is `JSON.stringify`. -/
structure Env where
  parse : String → Option Int
  toLocale : Int → String
  stringify : Item → String

/-! ## DOM trees -/

/-- A DOM element: tag name, assigned properties (in assignment order), text
content, element children (in append order). -/
inductive Node where
  | mk (tag : String) (props : List (String × String)) (text : String)
      (children : List Node)
  deriving Repr

namespace Node

/-- Tag name of an element. -/
def tag : Node → String
  | mk t _ _ _ => t

/-- Assigned properties of an element. -/
def props : Node → List (String × String)
  | mk _ p _ _ => p

/-- Text content set on an element. -/
def text : Node → String
  | mk _ _ s _ => s

/-- Element children. -/
def children : Node → List Node
  | mk _ _ _ c => c

/-- The value of a property, if the script assigned it. -/
def prop (n : Node) (name : String) : Option String :=
  (n.props.find? (fun kv => kv.1 == name)).map Prod.snd

mutual
/-- Whether the element or one of its descendants has a tag satisfying `p`. -/
def anyTag (p : String → Bool) : Node → Bool
  | mk t _ _ c => p t || anyTagList p c
/-- Whether some element of a forest (or a descendant of one) has a tag
satisfying `p`. -/
def anyTagList (p : String → Bool) : List Node → Bool
  | [] => false
  | n :: ns => anyTag p n || anyTagList p ns
end

end Node

/-- Tags of elements that embed media. -/
def isMediaTag (t : String) : Bool :=
  t == "img" || t == "iframe" || t == "video" || t == "audio" || t == "embed" ||
    t == "object" || t == "picture" || t == "canvas"

/-! ## formatDate (script.js 8-15) -/

/-- The constructor `new Date(iso)` on a string: it does not throw; an
unparsable string gives an invalid date (`none`). -/
def newDate (env : Env) (iso : String) : Except JsError (Option Int) :=
  .ok (env.parse iso)

/-- The method `toLocaleDateString(undefined, {year, month, day})`: for an
invalid date the language returns the string "Invalid Date". -/
def toLocaleDateString (env : Env) (d : Option Int) : Except JsError String :=
  match d with
  | none => .ok "Invalid Date"
  | some t => .ok (env.toLocale t)

/-- The function `formatDate(iso)`: the `try` block, and the `catch` that
returns the input. -/
def formatDate (env : Env) (iso : String) : String :=
  match (do
    let d ← newDate env iso
    toLocaleDateString env d) with
  | .ok s => s
  | .error _ => iso

/-! ## makeGalleryItem (script.js 17-93) -/

/-- A child of the gallery container: the element, and the item captured by the
click listener registered on it (the listener opens the modal for that item when
the click is not on a link); a placeholder has no listener. -/
structure GalleryChild where
  node : Node
  clickOpens : Option Item
  deriving Repr

/-- The function `makeGalleryItem(item)`. -/
def makeGalleryItem (env : Env) (item : Item) : Except JsError GalleryChild := do
  let wrapProps : List (String × String) := [("className", "gallery-item")]
  -- media container
  let url ← item.get Record.url
  let mediaLinkProps : List (String × String) :=
    [("href", toDOMString (jsOr url (some "#"))), ("target", "_blank"),
     ("rel", "noopener noreferrer")]
  let mediaType ← item.get Record.media_type
  let mediaChildren : List Node ←
    if mediaType = some "image" then do
      let hdurl ← item.get Record.hdurl
      let url ← item.get Record.url
      let title ← item.get Record.title
      let img := Node.mk "img"
        [("src", toDOMString (jsOr hdurl url)),
         ("alt", toDOMString (jsOr title (some "APOD Image")))] "" []
      pure [Node.mk "a" mediaLinkProps "" [img]]
    else if mediaType = some "video" then do
      let thumb ← item.get Record.thumbnail_url
      if truthy thumb then do
        let thumb ← item.get Record.thumbnail_url
        let title ← item.get Record.title
        let img := Node.mk "img"
          [("src", toDOMString thumb),
           ("alt", toDOMString (jsOr title (some "APOD Video")))] "" []
        -- the `overlay` div is created and styled but never attached
        pure [Node.mk "a" (mediaLinkProps ++ [("aria-label", "Open video in new tab")]) "" [img]]
      else do
        let url ← item.get Record.url
        let a := Node.mk "a"
          [("href", toDOMString url), ("target", "_blank"),
           ("rel", "noopener noreferrer")] "View video" []
        pure [Node.mk "div" [("style.padding", "20px"), ("style.textAlign", "center")] "" [a]]
    else do
      let url ← item.get Record.url
      pure [Node.mk "a"
        [("href", toDOMString (jsOr url (some "#"))), ("target", "_blank"),
         ("rel", "noopener noreferrer")] "Open resource" []]
  -- title and date
  let titleV ← item.get Record.title
  let title := Node.mk "h3" [("style.marginTop", "10px")]
    (toDOMString (jsOr titleV (some "Untitled"))) []
  let dateV ← item.get Record.date
  let dateP := Node.mk "p" [("style.fontSize", "13px"), ("style.color", "#666")]
    (formatDate env (toDOMString (jsOr dateV (some "")))) []
  let wrap := Node.mk "article" (wrapProps ++ [("dataset.apod", env.stringify item)]) ""
    (mediaChildren ++ [title, dateP])
  pure { node := wrap, clickOpens := some item }

/-! ## onClick (script.js 95-142) -/

/-- The trigger button. -/
structure Button where
  disabled : Bool
  textContent : String
  deriving DecidableEq, Repr

/-- The part of the page that `onClick` reads and writes. -/
structure Page where
  gallery : List GalleryChild
  ariaLive : Option String
  button : Button
  console : List JsError
  deriving Repr

/-- The parsed body of the response. -/
inductive Body where
  | notArray
  | array (items : List Item)
  deriving DecidableEq, Repr

/-- The result of `await res.json()`. -/
inductive JsonOutcome where
  | throws
  | value (body : Body)
  deriving DecidableEq, Repr

/-- How the fetch settles: the promise rejects, or it resolves with a response
(`ok`, `status`, and what `res.json()` will give). -/
inductive FetchOutcome where
  | rejected
  | response (ok : Bool) (status : Nat) (json : JsonOutcome)
  deriving DecidableEq, Repr

/-- A `div` with class `placeholder` and the given further properties. -/
def placeholder (text : String) (extra : List (String × String)) : GalleryChild :=
  { node := Node.mk "div" (("className", "placeholder") :: extra) text [],
    clickOpens := none }

/-- Text of the loading placeholder, as written in the source file. -/
def loadingText : String := "ðŸ”„ Loading space photosâ€¦"

/-- Text of the empty placeholder. -/
def emptyText : String := "No images found."

/-- Text of the error placeholder. -/
def errorText : String := "Failed to load images. Please try again later."

/-- Lines 99-108: the loading state. -/
def showLoading (p : Page) : Page :=
  { p with
    gallery := [placeholder loadingText [("role", "status")]]
    ariaLive := some "polite"
    button := { disabled := true, textContent := "Loading..." } }

/-- Lines 117-121: the empty placeholder. -/
def showEmpty (p : Page) : Page :=
  { p with gallery := [placeholder emptyText []] }

/-- Lines 127-130: `data.forEach`, appending one unit per item; an exception
thrown by `makeGalleryItem` leaves the loop with the units appended so far. -/
def renderItems (env : Env) : List Item → Page → Page × Option JsError
  | [], p => (p, none)
  | item :: rest, p =>
    match makeGalleryItem env item with
    | .error e => (p, some e)
    | .ok node => renderItems env rest { p with gallery := p.gallery ++ [node] }

/-- Lines 111-130: the `try` block once the fetch has settled; the result is
the page and the exception that left the block, if any. -/
def tryBlock (env : Env) (out : FetchOutcome) (p : Page) : Page × Option JsError :=
  match out with
  | .rejected => (p, some .fetchRejected)
  | .response ok status json =>
    if !ok then (p, some (.networkError status))
    else
      match json with
      | .throws => (p, some .jsonParseError)
      | .value .notArray => (showEmpty p, none)
      | .value (.array data) =>
        if data.length == 0 then (showEmpty p, none)
        else renderItems env data { p with gallery := [] }

/-- Lines 131-137: the `catch` block. -/
def catchBlock (p : Page) (err : JsError) : Page :=
  { p with
    console := p.console ++ [err]
    gallery := [placeholder errorText []] }

/-- Lines 138-141: the `finally` block. -/
def finallyBlock (p : Page) : Page :=
  { p with button := { disabled := false, textContent := "Fetch Space Images" } }

/-- A run of `onClick`: the page at each `await` (where control is yielded),
and the page when the function has finished. -/
structure Run where
  yields : List Page
  final : Page

/-- The function `onClick(event)` on a page, for a given way the fetch
settles. Control is yielded at `await fetch(...)` and, when the response is ok,
at `await res.json()`. -/
def onClick (env : Env) (out : FetchOutcome) (p : Page) : Run :=
  let p1 := showLoading p
  let awaits : List Page :=
    match out with
    | .rejected => [p1]
    | .response ok _ _ => if ok then [p1, p1] else [p1]
  let after :=
    match tryBlock env out p1 with
    | (p2, none) => p2
    | (p2, some err) => catchBlock p2 err
  { yields := awaits, final := finallyBlock after }

/-! ## openModal and closeModal (script.js 147-237) -/

/-- The method `s.includes(sub)`. -/
def includes (s sub : String) : Bool :=
  s.toList.tails.any (fun t => sub.toList.isPrefixOf t)

/-- Lines 148-220: the subtree built by `openModal`, rooted at the backdrop.
The modal container is child 0 of the backdrop and the close button is child 0
of the modal container. -/
def modalTree (env : Env) (item : Item) : Except JsError Node := do
  let closeBtn := Node.mk "button" [("className", "close-btn")] "Close" []
  let mediaType ← item.get Record.media_type
  let media : List Node ←
    if mediaType = some "image" then do
      let hdurl ← item.get Record.hdurl
      let url ← item.get Record.url
      let title ← item.get Record.title
      pure [Node.mk "img"
        [("src", toDOMString (jsOr hdurl url)),
         ("alt", toDOMString (jsOr title (some "APOD Image")))] "" []]
    else if mediaType = some "video" then do
      let url ← item.get Record.url
      if truthy url && includes (toDOMString url) "youtube.com" then do
        pure [Node.mk "iframe"
          [("src", toDOMString url), ("width", "100%"), ("height", "500"),
           ("frameBorder", "0"),
           ("allow", "accelerometer; autoplay; clipboard-write; encrypted-media; gyroscope; picture-in-picture"),
           ("allowFullscreen", "true")] "" []]
      else
        let thumb ← item.get Record.thumbnail_url
        if truthy thumb then do
          let title ← item.get Record.title
          pure [Node.mk "img"
            [("src", toDOMString thumb),
             ("alt", toDOMString (jsOr title (some "APOD Video")))] "" []]
        else do
          pure [Node.mk "a"
            [("href", toDOMString url), ("target", "_blank"),
             ("rel", "noopener noreferrer")] "Open video" []]
    else pure []
  -- meta: title and date
  let titleV ← item.get Record.title
  let title := Node.mk "h2" [] (toDOMString (jsOr titleV (some "Untitled"))) []
  let dateV ← item.get Record.date
  let date := Node.mk "div" [("style.color", "#666")]
    (formatDate env (toDOMString (jsOr dateV (some "")))) []
  let meta := Node.mk "div" [("className", "meta")] "" [title, date]
  -- explanation
  let explV ← item.get Record.explanation
  let expl : List Node :=
    if truthy explV then
      [Node.mk "div" [("className", "explanation")] (toDOMString explV) []]
    else []
  let modal := Node.mk "div"
    [("className", "modal"), ("role", "dialog"), ("aria-modal", "true")] ""
    ([closeBtn] ++ media ++ [meta] ++ expl)
  pure (Node.mk "div" [("className", "modal-backdrop")] "" [modal])

/-- The element reached from `n` by a path of child indices. -/
def Node.descend : Node → List Nat → Option Node
  | n, [] => some n
  | n, i :: rest =>
    match n.children[i]? with
    | none => none
    | some c => Node.descend c rest

/-- A backdrop element together with its identity: `id` tells apart the
backdrops created by different calls of `openModal`. An element inside an
overlay is identified by the overlay and its path from the backdrop. -/
structure Overlay where
  id : Nat
  node : Node
  deriving Repr

/-- What a registered click listener does: the close button's listener closes
the modal; the backdrop's listener closes it when the event target is the
backdrop itself. -/
inductive ClickAction where
  | close
  | closeIfTargetIsBackdrop
  deriving DecidableEq, Repr

/-- A click listener registered on the element at `path` of overlay
`overlay`; both actions close that same overlay. -/
structure ClickListener where
  overlay : Nat
  path : List Nat
  action : ClickAction
  deriving DecidableEq, Repr

/-- The document, as far as the modal code sees it: the backdrops attached to
`document.body` (in append order), the click listeners registered on modal
elements, and the `keydown` listeners registered on the document with
`once: true`, each given by the backdrop its `onKey` closes. -/
structure Doc where
  nextId : Nat
  body : List Overlay
  clickListeners : List ClickListener
  keyListeners : List Nat
  deriving Repr

/-- A document with no modal and no listener. -/
def Doc.init : Doc :=
  { nextId := 0, body := [], clickListeners := [], keyListeners := [] }

/-- Whether the backdrop `b` is attached to the document body. -/
def Doc.attached (d : Doc) (b : Nat) : Bool :=
  d.body.any (fun o => o.id == b)

/-- The function `closeModal(backdrop)`: removes the backdrop from its parent
if it has one. -/
def closeModal (d : Doc) (b : Nat) : Doc :=
  if d.attached b then { d with body := d.body.filter (fun o => o.id != b) } else d

/-- Path of the modal container inside an overlay. -/
def modalPath : List Nat := [0]

/-- Path of the close button inside an overlay. -/
def closeBtnPath : List Nat := [0, 0]

/-- The function `openModal(item)`. -/
def openModal (env : Env) (d : Doc) (item : Item) : Except JsError Doc := do
  let tree ← modalTree env item
  let backdrop := d.nextId
  pure
    { nextId := d.nextId + 1
      body := d.body ++ [{ id := backdrop, node := tree }]
      clickListeners := d.clickListeners ++
        [{ overlay := backdrop, path := closeBtnPath, action := .close },
         { overlay := backdrop, path := [], action := .closeIfTargetIsBackdrop }]
      keyListeners := d.keyListeners ++ [backdrop] }

/-- The elements a click event visits: the target, then each ancestor up to
the backdrop. -/
def propagation (target : List Nat) : List (List Nat) :=
  target.inits.reverse

/-- Runs one click listener for an event whose target is the element at
`target` of overlay `o`. -/
def runClickListener (o : Nat) (target : List Nat) (d : Doc) (l : ClickListener) : Doc :=
  match l.action with
  | .close => closeModal d l.overlay
  | .closeIfTargetIsBackdrop =>
    if o = l.overlay ∧ target = [] then closeModal d l.overlay else d

/-- A click whose target is the element at path `target` of overlay `o`: the
listeners registered on the target and on its ancestors run, in bubbling
order. -/
def click (d : Doc) (o : Nat) (target : List Nat) : Doc :=
  let listeners := (propagation target).flatMap fun q =>
    d.clickListeners.filter fun l => l.overlay == o && l.path == q
  listeners.foldl (runClickListener o target) d

/-- A `keydown` event on the document: every registered listener runs once and
is removed (`once: true`), whatever the key; `onKey` closes its backdrop when
the key is Escape. -/
def keydown (d : Doc) (key : String) : Doc :=
  d.keyListeners.foldl
    (fun d b => if key = "Escape" then closeModal d b else d)
    { d with keyListeners := [] }

/-! ## Closed forms and predicates used in the statements -/

/-- The media part that `makeGalleryItem` builds for a record, by branch. -/
def mediaPart (r : Record) : List Node :=
  if r.media_type = some "image" then
    [Node.mk "a" [("href", toDOMString (jsOr r.url (some "#"))), ("target", "_blank"),
        ("rel", "noopener noreferrer")] ""
      [Node.mk "img" [("src", toDOMString (jsOr r.hdurl r.url)),
        ("alt", toDOMString (jsOr r.title (some "APOD Image")))] "" []]]
  else if r.media_type = some "video" then
    if truthy r.thumbnail_url then
      [Node.mk "a" [("href", toDOMString (jsOr r.url (some "#"))), ("target", "_blank"),
          ("rel", "noopener noreferrer"), ("aria-label", "Open video in new tab")] ""
        [Node.mk "img" [("src", toDOMString r.thumbnail_url),
          ("alt", toDOMString (jsOr r.title (some "APOD Video")))] "" []]]
    else
      [Node.mk "div" [("style.padding", "20px"), ("style.textAlign", "center")] ""
        [Node.mk "a" [("href", toDOMString r.url), ("target", "_blank"),
          ("rel", "noopener noreferrer")] "View video" []]]
  else
    [Node.mk "a" [("href", toDOMString (jsOr r.url (some "#"))), ("target", "_blank"),
      ("rel", "noopener noreferrer")] "Open resource" []]

/-- The unit that `makeGalleryItem` returns for a record (see
`makeGalleryItem_obj`). -/
def unitOf (env : Env) (r : Record) : GalleryChild :=
  { node := Node.mk "article"
      [("className", "gallery-item"), ("dataset.apod", env.stringify (.obj r))] ""
      (mediaPart r ++
        [Node.mk "h3" [("style.marginTop", "10px")]
           (toDOMString (jsOr r.title (some "Untitled"))) [],
         Node.mk "p" [("style.fontSize", "13px"), ("style.color", "#666")]
           (formatDate env (toDOMString (jsOr r.date (some "")))) []])
    clickOpens := some (.obj r) }

/-- A gallery child that is a placeholder (class `placeholder`). -/
def isPlaceholder (c : GalleryChild) : Bool :=
  c.node.prop "className" == some "placeholder"

/-- A gallery child that is a visual unit (an `article` of class
`gallery-item`). -/
def isUnit (c : GalleryChild) : Bool :=
  c.node.tag == "article" && c.node.prop "className" == some "gallery-item"

/-- The gallery shows exactly one state: it is empty, or it holds one
placeholder and nothing else, or it holds visual units only. -/
def ShowsOneState (g : List GalleryChild) : Prop :=
  g = [] ∨ (∃ c, g = [c] ∧ isPlaceholder c = true ∧ isUnit c = false) ∨
    (g ≠ [] ∧ ∀ c ∈ g, isUnit c = true ∧ isPlaceholder c = false)

/-- The fetch fails: the promise rejects, the response is not ok, parsing
throws, or `makeGalleryItem` throws on an item of a non-empty array. -/
def FetchFails (env : Env) : FetchOutcome → Prop
  | .rejected => True
  | .response ok _ json =>
    ok = false ∨ json = .throws ∨
      ∃ items, json = .value (.array items) ∧
        ∃ item ∈ items, ∃ e, makeGalleryItem env item = .error e

/-- The response is ok and its parsed body is not an array or is an empty
array. -/
def FetchEmpty : FetchOutcome → Prop
  | .rejected => False
  | .response ok _ json =>
    ok = true ∧ (json = .value .notArray ∨ json = .value (.array []))

/-- The pages at which control is outside `onClick` or yielded by it, over
successive cycles: before each cycle, at each `await`, and after the last. The
button is disabled while a cycle is pending, so cycles follow one another. -/
def cyclePages (env : Env) : List FetchOutcome → Page → List Page
  | [], p => [p]
  | out :: outs, p =>
    p :: ((onClick env out p).yields ++ cyclePages env outs (onClick env out p).final)

/-- A successful fetch whose body is the array of the given records. -/
def okRecords (status : Nat) (records : List Record) : FetchOutcome :=
  .response true status (.value (.array (records.map Item.obj)))

/-- What can happen to the modal: a call of `openModal` for a record, a click
on the element at a path of an overlay, a `keydown` on the document. -/
inductive ModalEvent where
  | openModal (r : Record)
  | click (overlay : Nat) (target : List Nat)
  | keydown (key : String)
  deriving DecidableEq, Repr

/-- The document after one event. -/
def step (env : Env) (d : Doc) : ModalEvent → Doc
  | .openModal r =>
    match openModal env d (.obj r) with
    | .ok d1 => d1
    | .error _ => d
  | .click o target => click d o target
  | .keydown key => keydown d key

/-- The document after a sequence of events. -/
def run (env : Env) (d : Doc) (events : List ModalEvent) : Doc :=
  events.foldl (step env) d

/-- Every `openModal` of the sequence is called while no overlay is attached. -/
def OpensWhenClosed (env : Env) : Doc → List ModalEvent → Prop
  | _, [] => True
  | d, e :: es => (∀ r, e = .openModal r → d.body = []) ∧ OpensWhenClosed env (step env d e) es

/-- Identities are fresh: every backdrop named by a listener or attached to the
body was created before, so `nextId` is new. -/
def Doc.WF (d : Doc) : Prop :=
  (∀ l ∈ d.clickListeners, l.overlay < d.nextId) ∧ (∀ o ∈ d.body, o.id < d.nextId)

/-! ## Sample inputs -/

/-- A sample host: it parses one ISO date and rejects every other string. -/
def sampleEnv : Env :=
  { parse := fun s => if s = "2024-01-01" then some 1704067200000 else none
    toLocale := fun _ => "Jan 1, 2024"
    stringify := fun _ => "[object]" }

/-- A record with no property set. -/
def emptyRecord : Record :=
  { title := none, date := none, media_type := none, url := none, hdurl := none,
    thumbnail_url := none, explanation := none }

/-- An image record with both `hdurl` and `url`. -/
def sampleImage : Record :=
  { emptyRecord with
    title := some "M1", date := some "2024-01-01", media_type := some "image",
    url := some "a.jpg", hdurl := some "a-hd.jpg" }

/-- An image record with `url` only. -/
def sampleImageNoHd : Record :=
  { emptyRecord with title := some "M1", media_type := some "image", url := some "a.jpg" }

/-- A video record with a thumbnail. -/
def sampleVideoThumb : Record :=
  { emptyRecord with
    media_type := some "video", url := some "https://example.org/v",
    thumbnail_url := some "t.jpg" }

/-- A video record with a `url` and no thumbnail. -/
def sampleVideo : Record :=
  { emptyRecord with media_type := some "video", url := some "https://example.org/v" }

/-- A record whose media type is neither image nor video. -/
def sampleOther : Record :=
  { emptyRecord with title := some "M1", media_type := some "other", url := some "doc.pdf" }

/-- A page whose button carries a label other than the one the script writes. -/
def samplePage : Page :=
  { gallery := [], ariaLive := none, button := { disabled := false, textContent := "Go" },
    console := [] }

/-! ## Rendering -/

theorem makeGalleryItem_obj (env : Env) (r : Record) :
    makeGalleryItem env (.obj r) = .ok (unitOf env r) := by
  unfold makeGalleryItem unitOf mediaPart
  by_cases h1 : r.media_type = some "image"
  · simp [Item.get, h1, bind, Except.bind, pure, Except.pure]
  · by_cases h2 : r.media_type = some "video"
    · by_cases h3 : truthy r.thumbnail_url = true
      · simp [Item.get, h2, h3, bind, Except.bind, pure, Except.pure]
      · simp [Item.get, h2, h3, bind, Except.bind, pure, Except.pure]
    · simp [Item.get, h1, h2, bind, Except.bind, pure, Except.pure]

theorem makeGalleryItem_null (env : Env) :
    makeGalleryItem env .null = .error (.typeError "Cannot read properties of null") := by
  rfl

theorem truthy_eq_some {v : Option String} (h : truthy v = true) :
    ∃ s, v = some s ∧ s ≠ "" := by
  cases v with
  | none => simp [truthy] at h
  | some s => exact ⟨s, rfl, by simpa [truthy] using h⟩

/-- C4 (the code departs from the claim): on a string that the host cannot
parse as a date, `formatDate` returns the text "Invalid Date"; it does not
return its input, unless the input is that very text. The `catch` branch that
would return the input is never taken. -/
theorem formatDate_invalid (env : Env) (x : String) (h : env.parse x = none) :
    formatDate env x = "Invalid Date" ∧ (x ≠ "Invalid Date" → formatDate env x ≠ x) := by
  have h1 : formatDate env x = "Invalid Date" := by
    simp [formatDate, newDate, toLocaleDateString, h, bind, Except.bind]
  exact ⟨h1, fun hx => by rw [h1]; exact fun e => hx e.symm⟩

/-- The sample host cannot parse the empty string, and `formatDate` maps it to
"Invalid Date". -/
theorem formatDate_invalid_witness :
    sampleEnv.parse "" = none ∧
      (formatDate sampleEnv "" = "Invalid Date" ∧
        ("" ≠ "Invalid Date" → formatDate sampleEnv "" ≠ "")) :=
  ⟨by decide, formatDate_invalid sampleEnv "" (by decide)⟩

/-- C5 as stated fails: the unit built for a record of another media type has
three children, the link, a title element and a date element. -/
theorem other_unit_has_title_and_date :
    ∃ u, makeGalleryItem sampleEnv (.obj sampleOther) = .ok u ∧
      u.node.children.map Node.tag = ["a", "h3", "p"] ∧
      u.node.children.map Node.text = ["Open resource", "M1", "Invalid Date"] :=
  ⟨unitOf sampleEnv sampleOther, makeGalleryItem_obj _ _, by decide, by decide⟩

/-- C5 (amended): for a record whose media type is neither image nor video, the
media part of the unit is a bare link (no child, no wrapper) with text
"Open resource" whose destination is the url, or "#" when the url is absent or
empty; the unit's children are exactly that link, then the title element and
the date element that every unit carries. -/
theorem makeGalleryItem_other (env : Env) (r : Record)
    (hi : r.media_type ≠ some "image") (hv : r.media_type ≠ some "video") :
    ∃ u link title date,
      makeGalleryItem env (.obj r) = .ok u ∧
      u.node.children = [link, title, date] ∧
      link.tag = "a" ∧ link.text = "Open resource" ∧ link.children = [] ∧
      link.prop "href" = some (if truthy r.url then toDOMString r.url else "#") ∧
      title.tag = "h3" ∧ title.text = toDOMString (jsOr r.title (some "Untitled")) ∧
      date.tag = "p" ∧ date.text = formatDate env (toDOMString (jsOr r.date (some ""))) ∧
      u.node.anyTag isMediaTag = false := by
  have key : ∃ link title date,
      (unitOf env r).node.children = [link, title, date] ∧
      link.tag = "a" ∧ link.text = "Open resource" ∧ link.children = [] ∧
      link.prop "href" = some (if truthy r.url then toDOMString r.url else "#") ∧
      title.tag = "h3" ∧ title.text = toDOMString (jsOr r.title (some "Untitled")) ∧
      date.tag = "p" ∧ date.text = formatDate env (toDOMString (jsOr r.date (some ""))) ∧
      (unitOf env r).node.anyTag isMediaTag = false := by
    simp only [unitOf, mediaPart, if_neg hi, if_neg hv, Node.children, List.cons_append,
      List.nil_append]
    refine ⟨_, _, _, rfl, rfl, rfl, rfl, ?_, rfl, rfl, rfl, rfl, ?_⟩
    · by_cases h : truthy r.url = true <;> simp [Node.prop, Node.props, jsOr, h, toDOMString]
    · simp [Node.anyTag, Node.anyTagList, isMediaTag]
  obtain ⟨l, t, d, h⟩ := key
  exact ⟨_, l, t, d, makeGalleryItem_obj env r, h⟩

/-- The unit of the sample record of media type "other". -/
theorem makeGalleryItem_other_witness :
    ∃ u link title date,
      makeGalleryItem sampleEnv (.obj sampleOther) = .ok u ∧
      u.node.children = [link, title, date] ∧
      link.tag = "a" ∧ link.text = "Open resource" ∧ link.children = [] ∧
      link.prop "href" = some (if truthy sampleOther.url then toDOMString sampleOther.url else "#") ∧
      title.tag = "h3" ∧ title.text = toDOMString (jsOr sampleOther.title (some "Untitled")) ∧
      date.tag = "p" ∧
      date.text = formatDate sampleEnv (toDOMString (jsOr sampleOther.date (some ""))) ∧
      u.node.anyTag isMediaTag = false :=
  makeGalleryItem_other sampleEnv sampleOther (by decide) (by decide)

/-- C6: the media part of the unit built by `makeGalleryItem`. For an image
record with a non-empty `hdurl` the unit starts with a link holding an image
whose source is `hdurl`; when `hdurl` is absent or empty the source is `url`.
For a video record with a thumbnail the unit starts with a link labelled
"Open video in new tab" holding an image of the thumbnail. For a video record
with no thumbnail and a `url`, the unit starts with a box holding a
"View video" link whose destination is `url`, and no element of the unit is an
image or another embedded media element. -/
theorem makeGalleryItem_media (env : Env) (r : Record) :
    ∃ u, makeGalleryItem env (.obj r) = .ok u ∧
      (r.media_type = some "image" → truthy r.hdurl = true → truthy r.url = true →
        ∃ link img rest, u.node.children = link :: rest ∧ link.tag = "a" ∧
          link.children = [img] ∧ img.tag = "img" ∧ img.prop "src" = r.hdurl) ∧
      (r.media_type = some "image" → truthy r.hdurl = false →
        ∃ link img rest, u.node.children = link :: rest ∧ link.tag = "a" ∧
          link.children = [img] ∧ img.tag = "img" ∧
          img.prop "src" = some (toDOMString r.url)) ∧
      (r.media_type = some "video" → truthy r.thumbnail_url = true →
        ∃ link img rest, u.node.children = link :: rest ∧ link.tag = "a" ∧
          link.prop "aria-label" = some "Open video in new tab" ∧
          link.children = [img] ∧ img.tag = "img" ∧ img.prop "src" = r.thumbnail_url) ∧
      (r.media_type = some "video" → truthy r.thumbnail_url = false → truthy r.url = true →
        ∃ box a rest, u.node.children = box :: rest ∧ box.children = [a] ∧
          a.tag = "a" ∧ a.text = "View video" ∧ a.children = [] ∧
          a.prop "href" = r.url ∧ u.node.anyTag isMediaTag = false) := by
  refine ⟨unitOf env r, makeGalleryItem_obj env r, ?_, ?_, ?_, ?_⟩
  · intro hm hh _
    obtain ⟨s, hs, _⟩ := truthy_eq_some hh
    simp only [unitOf, mediaPart, if_pos hm, Node.children, List.cons_append, List.nil_append]
    refine ⟨_, _, _, rfl, rfl, rfl, rfl, ?_⟩
    rw [hs] at hh
    simp [Node.prop, Node.props, jsOr, hh, hs, toDOMString]
  · intro hm hh
    simp only [unitOf, mediaPart, if_pos hm, Node.children, List.cons_append, List.nil_append]
    refine ⟨_, _, _, rfl, rfl, rfl, rfl, ?_⟩
    simp [Node.prop, Node.props, jsOr, hh]
  · intro hm ht
    have hi : r.media_type ≠ some "image" := by rw [hm]; decide
    obtain ⟨s, hs, _⟩ := truthy_eq_some ht
    simp only [unitOf, mediaPart, if_neg hi, if_pos hm, if_pos ht, Node.children,
      List.cons_append, List.nil_append]
    refine ⟨_, _, _, rfl, rfl, ?_, rfl, rfl, ?_⟩
    · simp [Node.prop, Node.props]
    · simp [Node.prop, Node.props, hs, toDOMString]
  · intro hm ht hu
    have hi : r.media_type ≠ some "image" := by rw [hm]; decide
    have ht2 : ¬ (truthy r.thumbnail_url = true) := by simp [ht]
    obtain ⟨s, hs, _⟩ := truthy_eq_some hu
    simp only [unitOf, mediaPart, if_neg hi, if_pos hm, if_neg ht2, Node.children,
      List.cons_append, List.nil_append]
    refine ⟨_, _, _, rfl, rfl, rfl, rfl, rfl, ?_, ?_⟩
    · simp [Node.prop, Node.props, hs, toDOMString]
    · simp [Node.anyTag, Node.anyTagList, isMediaTag]

/-- The media part of the four sample records, one per branch. -/
theorem makeGalleryItem_media_witness :
    (∃ u link img rest, makeGalleryItem sampleEnv (.obj sampleImage) = .ok u ∧
        u.node.children = link :: rest ∧ link.children = [img] ∧
        Node.tag img = "img" ∧ Node.prop img "src" = some "a-hd.jpg") ∧
    (∃ u link img rest, makeGalleryItem sampleEnv (.obj sampleImageNoHd) = .ok u ∧
        u.node.children = link :: rest ∧ link.children = [img] ∧
        Node.tag img = "img" ∧ Node.prop img "src" = some "a.jpg") ∧
    (∃ u link img rest, makeGalleryItem sampleEnv (.obj sampleVideoThumb) = .ok u ∧
        u.node.children = link :: rest ∧ link.children = [img] ∧
        Node.tag img = "img" ∧ Node.prop img "src" = some "t.jpg") ∧
    (∃ u box a rest, makeGalleryItem sampleEnv (.obj sampleVideo) = .ok u ∧
        u.node.children = box :: rest ∧ box.children = [a] ∧
        Node.text a = "View video" ∧ Node.prop a "href" = some "https://example.org/v" ∧
        u.node.anyTag isMediaTag = false) := by
  refine ⟨?_, ?_, ?_, ?_⟩
  · obtain ⟨u, hu, h, _, _, _⟩ := makeGalleryItem_media sampleEnv sampleImage
    obtain ⟨link, img, rest, h0, _, h1, h2, h3⟩ := h (by decide) (by decide) (by decide)
    exact ⟨u, link, img, rest, hu, h0, h1, h2, h3⟩
  · obtain ⟨u, hu, _, h, _, _⟩ := makeGalleryItem_media sampleEnv sampleImageNoHd
    obtain ⟨link, img, rest, h0, _, h1, h2, h3⟩ := h (by decide) (by decide)
    exact ⟨u, link, img, rest, hu, h0, h1, h2, h3⟩
  · obtain ⟨u, hu, _, _, h, _⟩ := makeGalleryItem_media sampleEnv sampleVideoThumb
    obtain ⟨link, img, rest, h0, _, _, h1, h2, h3⟩ := h (by decide) (by decide)
    exact ⟨u, link, img, rest, hu, h0, h1, h2, h3⟩
  · obtain ⟨u, hu, _, _, _, h⟩ := makeGalleryItem_media sampleEnv sampleVideo
    obtain ⟨box, a, rest, h0, h1, _, h2, _, h3, h4⟩ := h (by decide) (by decide) (by decide)
    exact ⟨u, box, a, rest, hu, h0, h1, h2, h3, h4⟩

/-! ## The fetch cycle -/

theorem makeGalleryItem_ok_isUnit {env : Env} {item : Item} {c : GalleryChild}
    (h : makeGalleryItem env item = .ok c) : isUnit c = true ∧ isPlaceholder c = false := by
  cases item with
  | null => rw [makeGalleryItem_null] at h; cases h
  | obj r =>
    rw [makeGalleryItem_obj] at h
    cases h
    exact ⟨rfl, rfl⟩

theorem placeholder_isPlaceholder (t : String) (extra : List (String × String)) :
    isPlaceholder (placeholder t extra) = true ∧ isUnit (placeholder t extra) = false :=
  ⟨rfl, rfl⟩

/-- The loop either appends one unit per item, in order, or stops at an item
on which `makeGalleryItem` throws. -/
theorem renderItems_cases (env : Env) (items : List Item) (p : Page) :
    (∃ cs, List.Forall₂ (fun item c => makeGalleryItem env item = .ok c) items cs ∧
        renderItems env items p = ({ p with gallery := p.gallery ++ cs }, none)) ∨
    ((∃ item ∈ items, ∃ e, makeGalleryItem env item = .error e) ∧
        ∃ q e, renderItems env items p = (q, some e)) := by
  induction items generalizing p with
  | nil => exact Or.inl ⟨[], List.Forall₂.nil, by simp [renderItems]⟩
  | cons item rest ih =>
    cases hm : makeGalleryItem env item with
    | error e =>
      exact Or.inr ⟨⟨item, List.mem_cons_self _ _, e, hm⟩, p, e, by simp [renderItems, hm]⟩
    | ok c =>
      rcases ih { p with gallery := p.gallery ++ [c] } with ⟨cs, hcs, hr⟩ | ⟨⟨it, hit, e, he⟩, q, e2, hr⟩
      · refine Or.inl ⟨c :: cs, List.Forall₂.cons hm hcs, ?_⟩
        simp [renderItems, hm, hr]
      · exact Or.inr ⟨⟨it, List.mem_cons_of_mem _ hit, e, he⟩, q, e2, by simp [renderItems, hm, hr]⟩

theorem forall₂_ok_no_error {env : Env} {items : List Item} {cs : List GalleryChild}
    (h : List.Forall₂ (fun item c => makeGalleryItem env item = .ok c) items cs) :
    ¬ ∃ item ∈ items, ∃ e, makeGalleryItem env item = .error e := by
  induction h with
  | nil => simp
  | cons hm _ ih =>
    rintro ⟨it, hit, e, he⟩
    rcases List.mem_cons.1 hit with rfl | hit
    · rw [hm] at he; cases he
    · exact ih ⟨it, hit, e, he⟩

theorem forall₂_ok_units {env : Env} {items : List Item} {cs : List GalleryChild}
    (h : List.Forall₂ (fun item c => makeGalleryItem env item = .ok c) items cs) :
    ∀ c ∈ cs, isUnit c = true ∧ isPlaceholder c = false := by
  induction h with
  | nil => simp
  | cons hm _ ih =>
    intro c hc
    rcases List.mem_cons.1 hc with rfl | hc
    · exact makeGalleryItem_ok_isUnit hm
    · exact ih c hc

/-- The gallery when `onClick` has finished, by the way the fetch settles. -/
theorem final_gallery_cases (env : Env) (out : FetchOutcome) (p : Page) :
    (FetchFails env out ∧ ¬ FetchEmpty out ∧
        (onClick env out p).final.gallery = [placeholder errorText []]) ∨
    (FetchEmpty out ∧ ¬ FetchFails env out ∧
        (onClick env out p).final.gallery = [placeholder emptyText []]) ∨
    (¬ FetchFails env out ∧ ¬ FetchEmpty out ∧
        ∃ status items, out = .response true status (.value (.array items)) ∧ items ≠ [] ∧
          List.Forall₂ (fun item c => makeGalleryItem env item = .ok c) items
            (onClick env out p).final.gallery) := by
  cases out with
  | rejected =>
    exact Or.inl ⟨trivial, not_false, rfl⟩
  | response ok status json =>
    cases ok with
    | false => exact Or.inl ⟨Or.inl rfl, by simp [FetchEmpty], rfl⟩
    | true =>
      cases json with
      | throws => exact Or.inl ⟨Or.inr (Or.inl rfl), by simp [FetchEmpty], rfl⟩
      | value body =>
        cases body with
        | notArray =>
          exact Or.inr (Or.inl ⟨⟨rfl, Or.inl rfl⟩, by simp [FetchFails], rfl⟩)
        | array data =>
          cases data with
          | nil => exact Or.inr (Or.inl ⟨⟨rfl, Or.inr rfl⟩, by simp [FetchFails], rfl⟩)
          | cons item rest =>
            rcases renderItems_cases env (item :: rest) { showLoading p with gallery := [] } with
              ⟨cs, hcs, hr⟩ | ⟨hex, q, e, hr⟩
            · refine Or.inr (Or.inr ⟨?_, by simp [FetchEmpty], status, item :: rest, rfl, by simp, ?_⟩)
              · have := forall₂_ok_no_error hcs
                simpa [FetchFails] using this
              · simp [onClick, tryBlock, hr, finallyBlock]
                exact hcs
            · refine Or.inl ⟨Or.inr (Or.inr ⟨item :: rest, rfl, hex⟩), by simp [FetchEmpty], ?_⟩
              simp [onClick, tryBlock, hr, finallyBlock, catchBlock]

theorem placeholder_error_ne_empty :
    [placeholder errorText []] ≠ [placeholder emptyText []] := by
  simp [placeholder, errorText, emptyText]

theorem units_ne_placeholder {env : Env} {items : List Item} {cs : List GalleryChild}
    (h : List.Forall₂ (fun item c => makeGalleryItem env item = .ok c) items cs)
    (t : String) : cs ≠ [placeholder t []] := by
  intro hcs
  have := (forall₂_ok_units h) (placeholder t []) (by simp [hcs])
  simp [(placeholder_isPlaceholder t []).1] at this

/-- C1: the gallery when `onClick` has finished. It is the error placeholder
exactly when the fetch rejects, the response is not ok, parsing throws or
rendering throws; it is the empty placeholder exactly when the response is ok
and the parsed body is not an array or is an empty array; in every other case
the body is a non-empty array and the gallery holds one unit per item, in
order. A non-array body and an empty array give the empty placeholder, which
is not the error placeholder. -/
theorem onClick_final_gallery (env : Env) (out : FetchOutcome) (p : Page) :
    ((onClick env out p).final.gallery = [placeholder errorText []] ↔ FetchFails env out) ∧
    ((onClick env out p).final.gallery = [placeholder emptyText []] ↔ FetchEmpty out) ∧
    (FetchFails env out ∨ FetchEmpty out ∨
      ∃ status items, out = .response true status (.value (.array items)) ∧ items ≠ [] ∧
        List.Forall₂ (fun item c => makeGalleryItem env item = .ok c) items
          (onClick env out p).final.gallery) ∧
    (∀ status,
      (onClick env (.response true status (.value .notArray)) p).final.gallery =
        [placeholder emptyText []] ∧
      (onClick env (.response true status (.value (.array []))) p).final.gallery =
        [placeholder emptyText []]) ∧
    [placeholder emptyText []] ≠ [placeholder errorText []] := by
  refine ⟨?_, ?_, ?_, fun _ => ⟨rfl, rfl⟩, fun h => placeholder_error_ne_empty h.symm⟩
  · rcases final_gallery_cases env out p with
      ⟨hf, _, hg⟩ | ⟨_, hnf, hg⟩ | ⟨hnf, _, _, _, _, _, hcs⟩
    · exact ⟨fun _ => hf, fun _ => hg⟩
    · refine ⟨fun h => ?_, fun h => absurd h hnf⟩
      rw [hg] at h
      exact absurd h.symm placeholder_error_ne_empty
    · exact ⟨fun h => absurd h (units_ne_placeholder hcs _), fun h => absurd h hnf⟩
  · rcases final_gallery_cases env out p with
      ⟨_, hne, hg⟩ | ⟨he, _, hg⟩ | ⟨_, hne, _, _, _, _, hcs⟩
    · refine ⟨fun h => ?_, fun h => absurd h hne⟩
      rw [hg] at h
      exact absurd h placeholder_error_ne_empty
    · exact ⟨fun _ => he, fun _ => hg⟩
    · exact ⟨fun h => absurd h (units_ne_placeholder hcs _), fun h => absurd h hne⟩
  · rcases final_gallery_cases env out p with
      ⟨hf, _, _⟩ | ⟨he, _, _⟩ | ⟨_, _, h⟩
    · exact Or.inl hf
    · exact Or.inr (Or.inl he)
    · exact Or.inr (Or.inr h)

theorem renderItems_records (env : Env) (records : List Record) (p : Page) :
    renderItems env (records.map Item.obj) p =
      ({ p with gallery := p.gallery ++ records.map (unitOf env) }, none) := by
  induction records generalizing p with
  | nil => simp [renderItems]
  | cons r rest ih => simp [renderItems, makeGalleryItem_obj, ih]

theorem onClick_okRecords_gallery (env : Env) (status : Nat) (records : List Record)
    (p : Page) (hne : records ≠ []) :
    (onClick env (okRecords status records) p).final.gallery = records.map (unitOf env) := by
  cases records with
  | nil => exact absurd rfl hne
  | cons r rest =>
    have h := renderItems_records env (r :: rest) { showLoading p with gallery := [] }
    simp only [List.map_cons] at h
    simp [onClick, okRecords, tryBlock, finallyBlock, h]

/-- C2: for a successful fetch whose body is a non-empty array of records,
when `onClick` has finished the gallery has as many children as there are
records, its k-th child is the unit that `makeGalleryItem` returns for the k-th
record, and no child is a placeholder. -/
theorem onClick_renders_records_in_order (env : Env) (status : Nat)
    (records : List Record) (p : Page) (hne : records ≠ []) :
    ((onClick env (okRecords status records) p).final.gallery).length = records.length ∧
    (∀ (k : Nat) (r : Record), records[k]? = some r →
      ∃ c, ((onClick env (okRecords status records) p).final.gallery)[k]? = some c ∧
        makeGalleryItem env (.obj r) = .ok c) ∧
    (∀ c ∈ (onClick env (okRecords status records) p).final.gallery,
      isUnit c = true ∧ isPlaceholder c = false) := by
  rw [onClick_okRecords_gallery env status records p hne]
  refine ⟨by simp, ?_, ?_⟩
  · intro k r hk
    exact ⟨unitOf env r, by simp [List.getElem?_map, hk], makeGalleryItem_obj env r⟩
  · intro c hc
    obtain ⟨r, _, rfl⟩ := List.mem_map.1 hc
    exact makeGalleryItem_ok_isUnit (makeGalleryItem_obj env r)

/-- A fetch that returns two records. -/
theorem onClick_renders_records_in_order_witness :
    [sampleImage, sampleVideo] ≠ [] ∧
    ((onClick sampleEnv (okRecords 200 [sampleImage, sampleVideo]) samplePage).final.gallery).length
      = [sampleImage, sampleVideo].length ∧
    (∀ (k : Nat) (r : Record), [sampleImage, sampleVideo][k]? = some r →
      ∃ c, ((onClick sampleEnv (okRecords 200 [sampleImage, sampleVideo])
          samplePage).final.gallery)[k]? = some c ∧
        makeGalleryItem sampleEnv (.obj r) = .ok c) ∧
    (∀ c ∈ (onClick sampleEnv (okRecords 200 [sampleImage, sampleVideo]) samplePage).final.gallery,
      isUnit c = true ∧ isPlaceholder c = false) :=
  ⟨by decide, onClick_renders_records_in_order sampleEnv 200 [sampleImage, sampleVideo]
    samplePage (by decide)⟩

/-- C3 as stated fails: a button labelled "Go" before the cycle does not carry
that label when `onClick` has finished. -/
theorem onClick_label_not_restored :
    (onClick sampleEnv .rejected samplePage).final.button.textContent ≠
      samplePage.button.textContent := by
  decide

/-- C3 (amended): for every way the fetch settles and every page, when
`onClick` has finished the button is enabled and its label is the fixed text
"Fetch Space Images", whatever label it had before the cycle. -/
theorem onClick_restores_button (env : Env) (out : FetchOutcome) (p : Page) :
    (onClick env out p).final.button.disabled = false ∧
    (onClick env out p).final.button.textContent = "Fetch Space Images" :=
  ⟨rfl, rfl⟩

theorem showsOneState_no_mix {g : List GalleryChild} (h : ShowsOneState g) :
    g.countP isPlaceholder ≤ 1 ∧ (g.any isPlaceholder && g.any isUnit) = false := by
  rcases h with rfl | ⟨c, rfl, hp, hu⟩ | ⟨_, hall⟩
  · simp
  · simp [hp, hu]
  · have hnone : ∀ c ∈ g, ¬ (isPlaceholder c = true) := fun c hc => by simp [(hall c hc).2]
    have h0 : g.countP isPlaceholder = 0 := List.countP_eq_zero.2 hnone
    have h1 : g.any isPlaceholder = false := by
      rw [Bool.eq_false_iff]
      intro hany
      obtain ⟨c, hc, hcp⟩ := List.any_eq_true.1 hany
      exact hnone c hc hcp
    simp [h0, h1]

theorem showLoading_showsOneState (p : Page) : ShowsOneState (showLoading p).gallery :=
  Or.inr (Or.inl ⟨_, rfl, rfl, rfl⟩)

theorem onClick_yields_loading (env : Env) (out : FetchOutcome) (p : Page) :
    ∀ q ∈ (onClick env out p).yields, q = showLoading p := by
  intro q hq
  cases out with
  | rejected => simpa [onClick] using hq
  | response ok status json =>
    cases ok <;> simpa [onClick] using hq

theorem onClick_final_showsOneState (env : Env) (out : FetchOutcome) (p : Page) :
    ShowsOneState (onClick env out p).final.gallery := by
  rcases final_gallery_cases env out p with
    ⟨_, _, hg⟩ | ⟨_, _, hg⟩ | ⟨_, _, _, items, _, hne, hcs⟩
  · rw [hg]; exact Or.inr (Or.inl ⟨_, rfl, rfl, rfl⟩)
  · rw [hg]; exact Or.inr (Or.inl ⟨_, rfl, rfl, rfl⟩)
  · refine Or.inr (Or.inr ⟨?_, forall₂_ok_units hcs⟩)
    intro hnil
    rw [hnil] at hcs
    exact hne (List.forall₂_nil_right_iff.1 hcs)

theorem cyclePages_showsOneState (env : Env) (outs : List FetchOutcome) (p0 : Page)
    (h0 : ShowsOneState p0.gallery) :
    ∀ q ∈ cyclePages env outs p0, ShowsOneState q.gallery := by
  induction outs generalizing p0 with
  | nil =>
    intro q hq
    have : q = p0 := by simpa [cyclePages] using hq
    subst this
    exact h0
  | cons out outs ih =>
    intro q hq
    simp only [cyclePages, List.mem_cons, List.mem_append] at hq
    rcases hq with rfl | hq | hq
    · exact h0
    · rw [onClick_yields_loading env out p0 q hq]
      exact showLoading_showsOneState p0
    · exact ih _ (onClick_final_showsOneState env out p0) q hq

theorem cyclePages_tail_showsOneState (env : Env) (outs : List FetchOutcome) (p0 : Page) :
    ∀ q ∈ (cyclePages env outs p0).tail, ShowsOneState q.gallery := by
  cases outs with
  | nil => intro q hq; simp [cyclePages] at hq
  | cons out outs =>
    intro q hq
    simp only [cyclePages, List.tail_cons, List.mem_append] at hq
    rcases hq with hq | hq
    · rw [onClick_yields_loading env out p0 q hq]
      exact showLoading_showsOneState p0
    · exact cyclePages_showsOneState env outs _ (onClick_final_showsOneState env out p0) q hq

/-- C9: over any succession of fetch cycles, whatever way each fetch settles
(an exception of `makeGalleryItem` part-way through rendering included), the
gallery shows exactly one state at every point where control is yielded by
`onClick` or has left it: it is empty, or holds one placeholder and no unit, or
holds units only; it never holds two placeholders, nor a placeholder together
with a unit. This holds at every `await` and after every cycle whatever the
gallery held at the start, and also before the first cycle when the gallery of
the loaded page shows one state. -/
theorem gallery_shows_one_state (env : Env) (outs : List FetchOutcome) (p0 : Page) :
    (∀ q ∈ (cyclePages env outs p0).tail,
      ShowsOneState q.gallery ∧ q.gallery.countP isPlaceholder ≤ 1 ∧
        (q.gallery.any isPlaceholder && q.gallery.any isUnit) = false) ∧
    (ShowsOneState p0.gallery →
      ∀ q ∈ cyclePages env outs p0,
        ShowsOneState q.gallery ∧ q.gallery.countP isPlaceholder ≤ 1 ∧
          (q.gallery.any isPlaceholder && q.gallery.any isUnit) = false) := by
  refine ⟨fun q hq => ?_, fun h0 q hq => ?_⟩
  · have h := cyclePages_tail_showsOneState env outs p0 q hq
    exact ⟨h, showsOneState_no_mix h⟩
  · have h := cyclePages_showsOneState env outs p0 h0 q hq
    exact ⟨h, showsOneState_no_mix h⟩

/-- Three cycles from an empty gallery: a body whose second item is `null`, a
rejected fetch, a body of two records. -/
theorem gallery_shows_one_state_witness :
    ShowsOneState samplePage.gallery ∧
    ∀ q ∈ cyclePages sampleEnv
        [.response true 200 (.value (.array [.obj sampleImage, .null])), .rejected,
         okRecords 200 [sampleImage, sampleVideo]] samplePage,
      ShowsOneState q.gallery ∧ q.gallery.countP isPlaceholder ≤ 1 ∧
        (q.gallery.any isPlaceholder && q.gallery.any isUnit) = false :=
  ⟨Or.inl rfl, (gallery_shows_one_state sampleEnv _ samplePage).2 (Or.inl rfl)⟩

/-! ## The modal -/

theorem modalTree_obj (env : Env) (r : Record) :
    ∃ props rest, modalTree env (.obj r) =
      .ok (Node.mk "div" [("className", "modal-backdrop")] ""
        [Node.mk "div" props ""
          (Node.mk "button" [("className", "close-btn")] "Close" [] :: rest)]) := by
  simp only [modalTree, Item.get, bind, Except.bind, pure, Except.pure]
  split_ifs <;> exact ⟨_, _, rfl⟩

theorem openModal_obj (env : Env) (d : Doc) (r : Record) :
    ∃ props rest,
      openModal env d (.obj r) = .ok (Doc.mk (d.nextId + 1)
        (d.body ++ [Overlay.mk d.nextId
          (Node.mk "div" [("className", "modal-backdrop")] ""
            [Node.mk "div" props ""
              (Node.mk "button" [("className", "close-btn")] "Close" [] :: rest)])])
        (d.clickListeners ++
          [ClickListener.mk d.nextId closeBtnPath .close,
           ClickListener.mk d.nextId [] .closeIfTargetIsBackdrop])
        (d.keyListeners ++ [d.nextId])) := by
  obtain ⟨props, rest, h⟩ := modalTree_obj env r
  exact ⟨props, rest, by simp [openModal, h, bind, Except.bind, pure, Except.pure]⟩

theorem attached_closeModal_self (d : Doc) (b : Nat) : (closeModal d b).attached b = false := by
  unfold closeModal
  by_cases h : d.attached b = true
  · rw [if_pos h]
    simp [Doc.attached, List.any_filter]
  · rw [if_neg h]
    simpa using h

theorem attached_closeModal_of_false {d : Doc} {b : Nat} (c : Nat)
    (h : d.attached b = false) : (closeModal d c).attached b = false := by
  unfold closeModal
  by_cases hc : d.attached c = true
  · rw [if_pos hc]
    simp only [Doc.attached, List.any_eq_false] at h ⊢
    intro o ho
    exact h o (List.mem_filter.1 ho).1
  · rw [if_neg hc]
    exact h

theorem foldl_closeModal_not_attached (keys : List Nat) (d : Doc) (b : Nat)
    (h : b ∈ keys ∨ d.attached b = false) :
    (keys.foldl (fun d b => closeModal d b) d).attached b = false := by
  induction keys generalizing d with
  | nil =>
    rcases h with h | h
    · cases h
    · exact h
  | cons c keys ih =>
    simp only [List.foldl_cons]
    apply ih
    rcases h with h | h
    · rcases List.mem_cons.1 h with rfl | h
      · exact Or.inr (attached_closeModal_self d b)
      · exact Or.inl h
    · exact Or.inr (attached_closeModal_of_false c h)

theorem foldl_keep (keys : List Nat) (d : Doc) :
    keys.foldl (fun (d : Doc) (_ : Nat) => d) d = d := by
  induction keys with
  | nil => rfl
  | cons _ _ ih => simp

theorem keydown_escape_closes (d : Doc) (b : Nat) (h : b ∈ d.keyListeners) :
    (keydown d "Escape").attached b = false := by
  simp only [keydown, if_true]
  exact foldl_closeModal_not_attached _ _ b (Or.inl h)

theorem keydown_other (d : Doc) (k : String) (hk : k ≠ "Escape") :
    keydown d k = { d with keyListeners := [] } := by
  simp only [keydown, if_neg hk]
  exact foldl_keep _ _

theorem runClickListener_of_false (o : Nat) (target : List Nat) {d : Doc} {b : Nat}
    (l : ClickListener) (h : d.attached b = false) :
    (runClickListener o target d l).attached b = false := by
  unfold runClickListener
  cases l.action with
  | close => exact attached_closeModal_of_false _ h
  | closeIfTargetIsBackdrop =>
    simp only
    split_ifs
    · exact attached_closeModal_of_false _ h
    · exact h

theorem foldl_click_not_attached (o : Nat) (target : List Nat) (ls : List ClickListener)
    (d : Doc) (b : Nat)
    (h : (∃ l ∈ ls, l.overlay = b ∧ (l.action = .close ∨ (o = b ∧ target = []))) ∨
      d.attached b = false) :
    (ls.foldl (runClickListener o target) d).attached b = false := by
  induction ls generalizing d with
  | nil =>
    rcases h with ⟨l, hl, _⟩ | h
    · cases hl
    · exact h
  | cons c ls ih =>
    simp only [List.foldl_cons]
    apply ih
    rcases h with ⟨l, hl, hb, hact⟩ | h
    · rcases List.mem_cons.1 hl with rfl | hl
      · right
        unfold runClickListener
        cases hcase : l.action with
        | close => simp only; rw [hb]; exact attached_closeModal_self d b
        | closeIfTargetIsBackdrop =>
          rcases hact with hact | ⟨ho, ht⟩
          · rw [hcase] at hact; cases hact
          · simp only [hb, ho, ht, and_self, if_true]
            exact attached_closeModal_self d b
      · exact Or.inl ⟨l, hl, hb, hact⟩
    · exact Or.inr (runClickListener_of_false o target c h)

theorem foldl_click_keep (o : Nat) (target : List Nat) (ls : List ClickListener) (d : Doc)
    (h : ∀ l ∈ ls, l.action = .closeIfTargetIsBackdrop ∧ ¬ (o = l.overlay ∧ target = [])) :
    ls.foldl (runClickListener o target) d = d := by
  induction ls generalizing d with
  | nil => rfl
  | cons c ls ih =>
    have hc := h c (List.mem_cons_self _ _)
    have : runClickListener o target d c = d := by
      unfold runClickListener
      rw [hc.1]
      simp only [if_neg hc.2]
    simp only [List.foldl_cons, this]
    exact ih d (fun l hl => h l (List.mem_cons_of_mem _ hl))

theorem closeModal_listeners (d : Doc) (b : Nat) :
    (closeModal d b).clickListeners = d.clickListeners ∧
      (closeModal d b).nextId = d.nextId ∧
      (∀ o ∈ (closeModal d b).body, o ∈ d.body) ∧
      (closeModal d b).body.length ≤ d.body.length := by
  unfold closeModal
  split_ifs
  · exact ⟨rfl, rfl, fun o ho => (List.mem_filter.1 ho).1, List.length_filter_le _ _⟩
  · exact ⟨rfl, rfl, fun _ ho => ho, le_refl _⟩

theorem runClickListener_frame (o : Nat) (target : List Nat) (d : Doc) (l : ClickListener) :
    (runClickListener o target d l).clickListeners = d.clickListeners ∧
      (runClickListener o target d l).nextId = d.nextId ∧
      (∀ x ∈ (runClickListener o target d l).body, x ∈ d.body) ∧
      (runClickListener o target d l).body.length ≤ d.body.length := by
  unfold runClickListener
  cases l.action with
  | close => exact closeModal_listeners d _
  | closeIfTargetIsBackdrop =>
    simp only
    split_ifs
    · exact closeModal_listeners d _
    · exact ⟨rfl, rfl, fun _ ho => ho, le_refl _⟩

theorem foldl_click_frame (o : Nat) (target : List Nat) (ls : List ClickListener) (d : Doc) :
    (ls.foldl (runClickListener o target) d).clickListeners = d.clickListeners ∧
      (ls.foldl (runClickListener o target) d).nextId = d.nextId ∧
      (∀ x ∈ (ls.foldl (runClickListener o target) d).body, x ∈ d.body) ∧
      (ls.foldl (runClickListener o target) d).body.length ≤ d.body.length := by
  induction ls generalizing d with
  | nil => exact ⟨rfl, rfl, fun _ ho => ho, le_refl _⟩
  | cons c ls ih =>
    obtain ⟨h1, h2, h3, h4⟩ := ih (runClickListener o target d c)
    obtain ⟨g1, g2, g3, g4⟩ := runClickListener_frame o target d c
    simp only [List.foldl_cons]
    exact ⟨h1.trans g1, h2.trans g2, fun x hx => g3 x (h3 x hx), le_trans h4 g4⟩

theorem foldl_key_frame (key : String) (keys : List Nat) (d : Doc) :
    (keys.foldl (fun d b => if key = "Escape" then closeModal d b else d) d).clickListeners
        = d.clickListeners ∧
      (keys.foldl (fun d b => if key = "Escape" then closeModal d b else d) d).nextId
        = d.nextId ∧
      (∀ x ∈ (keys.foldl (fun d b => if key = "Escape" then closeModal d b else d) d).body,
        x ∈ d.body) ∧
      (keys.foldl (fun d b => if key = "Escape" then closeModal d b else d) d).body.length
        ≤ d.body.length := by
  induction keys generalizing d with
  | nil => exact ⟨rfl, rfl, fun _ ho => ho, le_refl _⟩
  | cons c keys ih =>
    simp only [List.foldl_cons]
    by_cases hk : key = "Escape"
    · obtain ⟨h1, h2, h3, h4⟩ := ih (closeModal d c)
      obtain ⟨g1, g2, g3, g4⟩ := closeModal_listeners d c
      simp only [if_pos hk] at h1 h2 h3 h4 ⊢
      exact ⟨h1.trans g1, h2.trans g2, fun x hx => g3 x (h3 x hx), le_trans h4 g4⟩
    · simp only [if_neg hk] at ih ⊢
      exact ih d

theorem step_wf (env : Env) (d : Doc) (e : ModalEvent) (h : d.WF) : (step env d e).WF := by
  cases e with
  | openModal r =>
    obtain ⟨props, rest, ho⟩ := openModal_obj env d r
    simp only [step, ho]
    refine ⟨fun l hl => ?_, fun o ho => ?_⟩
    · rcases List.mem_append.1 hl with hl | hl
      · exact Nat.lt_succ_of_lt (h.1 l hl)
      · simp only [List.mem_cons, List.mem_singleton, List.not_mem_nil, or_false] at hl
        rcases hl with rfl | rfl <;> exact Nat.lt_succ_self _
    · rcases List.mem_append.1 ho with ho | ho
      · exact Nat.lt_succ_of_lt (h.2 o ho)
      · simp only [List.mem_singleton] at ho
        subst ho
        exact Nat.lt_succ_self _
  | click o target =>
    obtain ⟨h1, h2, h3, _⟩ := foldl_click_frame o target
      ((propagation target).flatMap fun q =>
        d.clickListeners.filter fun l => l.overlay == o && l.path == q) d
    refine ⟨fun l hl => ?_, fun x hx => ?_⟩
    · simp only [step, click] at hl ⊢
      rw [h2]
      rw [h1] at hl
      exact h.1 l hl
    · simp only [step, click] at hx ⊢
      rw [h2]
      exact h.2 x (h3 x hx)
  | keydown key =>
    obtain ⟨h1, h2, h3, _⟩ := foldl_key_frame key d.keyListeners { d with keyListeners := [] }
    refine ⟨fun l hl => ?_, fun x hx => ?_⟩
    · simp only [step, keydown] at hl ⊢
      rw [h2]
      rw [h1] at hl
      exact h.1 l hl
    · simp only [step, keydown] at hx ⊢
      rw [h2]
      exact h.2 x (h3 x hx)

theorem run_wf (env : Env) (events : List ModalEvent) (d : Doc) (h : d.WF) :
    (run env d events).WF := by
  induction events generalizing d with
  | nil => exact h
  | cons e es ih => exact ih _ (step_wf env d e h)

theorem init_wf : Doc.init.WF :=
  ⟨fun _ hl => (by cases hl), fun _ ho => (by cases ho)⟩

theorem descend_below_closeBtn (t s : String) (p q props : List (String × String))
    (rest : List Node) (target : List Nat) (hpre : closeBtnPath <+: target)
    (hvalid : ((Node.mk "div" p "" [Node.mk "div" props ""
      (Node.mk t q s [] :: rest)]).descend target).isSome = true) :
    target = closeBtnPath := by
  obtain ⟨tail, rfl⟩ := hpre
  cases tail with
  | nil => rfl
  | cons i tail => simp [closeBtnPath, Node.descend, Node.children] at hvalid

theorem attached_append_self (body : List Overlay) (b : Nat) (n : Node) :
    (body ++ [Overlay.mk b n]).any (fun o => o.id == b) = true := by
  simp

/-- C7: in any document reached by earlier events, after `openModal(record)`
the new overlay is attached, and (i) an Escape keydown removes it, (ii) a click
whose target is the backdrop itself removes it, (iii) a click whose target is
the modal container or a descendant of it other than the close button leaves
it attached. -/
theorem openModal_dismissal (env : Env) (events : List ModalEvent) (r : Record) :
    ∃ d1 tree,
      openModal env (run env Doc.init events) (.obj r) = .ok d1 ∧
      d1.body = (run env Doc.init events).body ++
        [Overlay.mk (run env Doc.init events).nextId tree] ∧
      modalTree env (.obj r) = .ok tree ∧
      (tree.descend modalPath).isSome = true ∧
      d1.attached (run env Doc.init events).nextId = true ∧
      (keydown d1 "Escape").attached (run env Doc.init events).nextId = false ∧
      (click d1 (run env Doc.init events).nextId []).attached
        (run env Doc.init events).nextId = false ∧
      (∀ target : List Nat, target ≠ [] → target ≠ closeBtnPath →
        (tree.descend target).isSome = true →
        (click d1 (run env Doc.init events).nextId target).attached
          (run env Doc.init events).nextId = true) := by
  have hwf := run_wf env events Doc.init init_wf
  generalize run env Doc.init events = d at hwf ⊢
  obtain ⟨props, rest, ho⟩ := openModal_obj env d r
  have ht : modalTree env (.obj r) = .ok (Node.mk "div" [("className", "modal-backdrop")] ""
      [Node.mk "div" props ""
        (Node.mk "button" [("className", "close-btn")] "Close" [] :: rest)]) := by
    cases hm : modalTree env (.obj r) with
    | error e => simp [openModal, hm, bind, Except.bind] at ho
    | ok tree =>
      simp only [openModal, hm, bind, Except.bind, pure, Except.pure] at ho
      injection ho with ho
      injection ho with _ hb _ _
      have := List.append_cancel_left hb
      injection this with this _
      injection this with _ this
      rw [this]
  refine ⟨_, _, ho, rfl, ht, rfl, ?_, ?_, ?_, ?_⟩
  · exact attached_append_self _ _ _
  · exact keydown_escape_closes _ _ (by simp)
  · simp only [click]
    apply foldl_click_not_attached
    left
    refine ⟨ClickListener.mk d.nextId [] .closeIfTargetIsBackdrop, ?_, rfl, Or.inr ⟨rfl, rfl⟩⟩
    simp [propagation]
  · intro target hne hbtn hvalid
    simp only [click]
    rw [foldl_click_keep]
    · exact attached_append_self _ _ _
    · intro l hl
      obtain ⟨q, hq, hl⟩ := List.mem_flatMap.1 hl
      obtain ⟨hmem, hcond⟩ := List.mem_filter.1 hl
      simp only [Bool.and_eq_true, beq_iff_eq] at hcond
      obtain ⟨hov, hpath⟩ := hcond
      rcases List.mem_append.1 hmem with hold | hnew
      · have := hwf.1 l hold
        omega
      · simp only [List.mem_cons, List.mem_singleton, List.not_mem_nil, or_false] at hnew
        rcases hnew with rfl | rfl
        · exfalso
          apply hbtn
          have hpre : closeBtnPath <+: target := by
            have : q ∈ target.inits := by simpa [propagation] using hq
            rw [← hpath] at this
            exact (List.mem_inits _ _).1 this
          exact descend_below_closeBtn _ _ _ _ _ _ _ hpre hvalid
        · exact ⟨rfl, fun h => hne h.2⟩

/-- Opening the modal of the sample image in the empty document: Escape and a
click on the backdrop remove the overlay, a click on the modal container does
not. -/
theorem openModal_dismissal_witness :
    ∃ d1 tree,
      openModal sampleEnv (run sampleEnv Doc.init []) (.obj sampleImage) = .ok d1 ∧
      (keydown d1 "Escape").attached 0 = false ∧
      (click d1 0 []).attached 0 = false ∧
      modalPath ≠ [] ∧ modalPath ≠ closeBtnPath ∧
      (Node.descend tree modalPath).isSome = true ∧
      (click d1 0 modalPath).attached 0 = true := by
  obtain ⟨d1, tree, h1, _, _, hv, _, h4, h5, h6⟩ :=
    openModal_dismissal sampleEnv [] sampleImage
  exact ⟨d1, tree, h1, h4, h5, by decide, by decide, hv,
    h6 modalPath (by decide) (by decide) hv⟩

theorem step_body_length (env : Env) (d : Doc) (e : ModalEvent)
    (hopen : ∀ r, e = .openModal r → d.body = []) (h : d.body.length ≤ 1) :
    (step env d e).body.length ≤ 1 := by
  cases e with
  | openModal r =>
    obtain ⟨props, rest, ho⟩ := openModal_obj env d r
    simp [step, ho, hopen r rfl]
  | click o target =>
    exact le_trans (foldl_click_frame o target _ d).2.2.2 h
  | keydown key =>
    exact le_trans (foldl_key_frame key d.keyListeners { d with keyListeners := [] }).2.2.2 h

theorem run_body_length (env : Env) (events : List ModalEvent) (d : Doc)
    (h : d.body.length ≤ 1) (hopen : OpensWhenClosed env d events) (k : Nat) :
    (run env d (events.take k)).body.length ≤ 1 := by
  induction events generalizing d k with
  | nil => simpa [run] using h
  | cons e es ih =>
    cases k with
    | zero => simpa [run] using h
    | succ k =>
      simp only [List.take_succ_cons, run, List.foldl_cons]
      exact ih (step env d e) (step_body_length env d e hopen.1 h) hopen.2 k

/-- C8 as stated fails: two calls of `openModal` in a row leave two overlays of
class `modal-backdrop` attached to the body. -/
theorem two_opens_stack_overlays :
    (run sampleEnv Doc.init [.openModal sampleImage, .openModal sampleOther]).body.length = 2 ∧
    (run sampleEnv Doc.init [.openModal sampleImage, .openModal sampleOther]).body.map
      (fun o => o.node.prop "className") = [some "modal-backdrop", some "modal-backdrop"] := by
  decide

/-- C8 (amended): when every `openModal` is called while no overlay is
attached, every state reached from the empty document by `openModal` calls,
clicks and key presses has at most one overlay attached to the body. -/
theorem at_most_one_overlay (env : Env) (events : List ModalEvent)
    (hopen : OpensWhenClosed env Doc.init events) (k : Nat) :
    (run env Doc.init (events.take k)).body.length ≤ 1 :=
  run_body_length env events Doc.init (Nat.zero_le _) hopen k

/-- Open, press a key, click the backdrop, open again: each `openModal` finds no
overlay attached. -/
theorem at_most_one_overlay_witness :
    OpensWhenClosed sampleEnv Doc.init
        [.openModal sampleImage, .keydown "a", .click 0 [], .openModal sampleVideo] ∧
      (run sampleEnv Doc.init
        ([ModalEvent.openModal sampleImage, .keydown "a", .click 0 [],
          .openModal sampleVideo].take 4)).body.length ≤ 1 := by
  have h : OpensWhenClosed sampleEnv Doc.init
      [.openModal sampleImage, .keydown "a", .click 0 [], .openModal sampleVideo] := by
    exact ⟨fun _ _ => rfl, ⟨fun r hr => (by cases hr), ⟨fun r hr => (by cases hr),
      ⟨fun _ _ => rfl, trivial⟩⟩⟩⟩
  exact ⟨h, at_most_one_overlay sampleEnv _ h 4⟩

/-- C10: the keydown listener registered by `openModal` is consumed by the
first keydown of any key. After `openModal(record)` and a keydown of a key
other than Escape, no keydown listener is left and the overlay is attached; a
following Escape keydown leaves it attached; a click on the close button or on
the backdrop still removes it. -/
theorem keydown_listener_consumed (env : Env) (d : Doc) (r : Record) (k : String)
    (hk : k ≠ "Escape") :
    ∃ d1, openModal env d (.obj r) = .ok d1 ∧
      (keydown d1 k).keyListeners = [] ∧
      (keydown d1 k).attached d.nextId = true ∧
      (keydown (keydown d1 k) "Escape").attached d.nextId = true ∧
      (click (keydown (keydown d1 k) "Escape") d.nextId closeBtnPath).attached d.nextId
        = false ∧
      (click (keydown (keydown d1 k) "Escape") d.nextId []).attached d.nextId = false := by
  obtain ⟨props, rest, ho⟩ := openModal_obj env d r
  refine ⟨_, ho, ?_, ?_, ?_, ?_, ?_⟩
  · rw [keydown_other _ k hk]
  · rw [keydown_other _ k hk]
    exact attached_append_self _ _ _
  · rw [keydown_other _ k hk]
    simp only [keydown, List.foldl_nil]
    exact attached_append_self _ _ _
  · rw [keydown_other _ k hk]
    simp only [keydown, List.foldl_nil, click]
    apply foldl_click_not_attached
    left
    refine ⟨ClickListener.mk d.nextId closeBtnPath .close, ?_, rfl, Or.inl rfl⟩
    simp [propagation, closeBtnPath]
  · rw [keydown_other _ k hk]
    simp only [keydown, List.foldl_nil, click]
    apply foldl_click_not_attached
    left
    refine ⟨ClickListener.mk d.nextId [] .closeIfTargetIsBackdrop, ?_, rfl, Or.inr ⟨rfl, rfl⟩⟩
    simp [propagation]

/-- Opening the modal of the sample video, pressing Enter, then Escape. -/
theorem keydown_listener_consumed_witness :
    "Enter" ≠ "Escape" ∧
    ∃ d1, openModal sampleEnv Doc.init (.obj sampleVideo) = .ok d1 ∧
      (keydown d1 "Enter").keyListeners = [] ∧
      (keydown d1 "Enter").attached Doc.init.nextId = true ∧
      (keydown (keydown d1 "Enter") "Escape").attached Doc.init.nextId = true ∧
      (click (keydown (keydown d1 "Enter") "Escape") Doc.init.nextId closeBtnPath).attached
        Doc.init.nextId = false ∧
      (click (keydown (keydown d1 "Enter") "Escape") Doc.init.nextId []).attached
        Doc.init.nextId = false :=
  ⟨by decide, keydown_listener_consumed sampleEnv Doc.init sampleVideo "Enter" (by decide)⟩

end SpaceExplorer
